import Mathlib

/-!
Verification of the repository synchronization and caching engine of
github-repos-management.

The development shallowly embeds the in-memory cache (package memory,
type Cache), the service layer (package service, type Service) and the
query engine into Lean.  Go maps are modelled as association lists with
unique-key update; Go slices as lists; Go time.Time as a Nat tick;
Go int as Int; operations that can panic (slice bounds, division by
zero) return Option, with none standing for a runtime panic.  External
collaborators (the GitHub client) are passed in as explicit fetch-result
parameters, so a sync cycle is a pure state transformer indexed by the
outcome of the external calls.
-/

set_option autoImplicit false

namespace RepoMgmt

/-! ## Go map primitives

Association-list model of a Go map.  `mapInsert` replaces the first
binding of the key in place (or appends a fresh binding), `mapErase`
removes every binding of the key, matching the unique-key semantics of
a Go map. -/

def mapFind? {κ α : Type} [DecidableEq κ] : List (κ × α) → κ → Option α
  | [], _ => none
  | (k', v) :: m, k => if k' = k then some v else mapFind? m k

def mapInsert {κ α : Type} [DecidableEq κ] : List (κ × α) → κ → α → List (κ × α)
  | [], k, v => [(k, v)]
  | (k', v') :: m, k, v =>
      if k' = k then (k, v) :: m else (k', v') :: mapInsert m k v

def mapErase {κ α : Type} [DecidableEq κ] (m : List (κ × α)) (k : κ) : List (κ × α) :=
  m.filter (fun p => decide (p.1 ≠ k))

@[simp] theorem mapFind?_insert_self {κ α : Type} [DecidableEq κ]
    (m : List (κ × α)) (k : κ) (v : α) : mapFind? (mapInsert m k v) k = some v := by
  induction m with
  | nil => simp [mapInsert, mapFind?]
  | cons p m ih =>
      obtain ⟨k', v'⟩ := p
      by_cases h : k' = k <;> simp [mapInsert, mapFind?, h, ih]

@[simp] theorem mapFind?_insert_ne {κ α : Type} [DecidableEq κ]
    (m : List (κ × α)) (k k' : κ) (v : α) (h : k ≠ k') :
    mapFind? (mapInsert m k v) k' = mapFind? m k' := by
  induction m with
  | nil => simp [mapInsert, mapFind?, h]
  | cons p m ih =>
      obtain ⟨k₀, v₀⟩ := p
      by_cases h₀ : k₀ = k
      · subst h₀
        simp [mapInsert, mapFind?, h]
      · simp [mapInsert, mapFind?, h₀, ih]

@[simp] theorem mapFind?_erase_self {κ α : Type} [DecidableEq κ]
    (m : List (κ × α)) (k : κ) : mapFind? (mapErase m k) k = none := by
  induction m with
  | nil => simp [mapErase, mapFind?]
  | cons p m ih =>
      obtain ⟨k₀, v₀⟩ := p
      simp only [mapErase] at ih ⊢
      by_cases h₀ : k₀ = k
      · subst h₀
        simpa [mapFind?] using ih
      · simpa [mapFind?, h₀] using ih

@[simp] theorem mapFind?_erase_ne {κ α : Type} [DecidableEq κ]
    (m : List (κ × α)) (k k' : κ) (h : k' ≠ k) :
    mapFind? (mapErase m k) k' = mapFind? m k' := by
  induction m with
  | nil => simp [mapErase, mapFind?]
  | cons p m ih =>
      obtain ⟨k₀, v₀⟩ := p
      simp only [mapErase] at ih ⊢
      by_cases h₀ : k₀ = k
      · subst h₀
        simpa [mapFind?, Ne.symm h] using ih
      · by_cases h₁ : k₀ = k'
        · subst h₁
          simp [mapFind?, h₀]
        · simpa [mapFind?, h₀, h₁] using ih

theorem mapInsert_insert_same {κ α : Type} [DecidableEq κ]
    (m : List (κ × α)) (k : κ) (v v' : α) :
    mapInsert (mapInsert m k v) k v' = mapInsert m k v' := by
  induction m with
  | nil => simp [mapInsert]
  | cons p m ih =>
      obtain ⟨k₀, v₀⟩ := p
      by_cases h₀ : k₀ = k
      · simp [mapInsert, h₀]
      · simp [mapInsert, h₀, ih]

/-! ## Go string and slice primitives -/

/-- Model of strings.HasPrefix, by structural recursion on the character
data so that concrete instances evaluate in the kernel. -/
def strHasPfx (s pre : String) : Bool :=
  List.isPrefixOf pre.data s.data

/-- Model of strings.Split with separator "/", on the character data. -/
def splitSlashChars : List Char → List (List Char)
  | [] => [[]]
  | c :: cs =>
      let r := splitSlashChars cs
      if c = '/' then [] :: r
      else
        match r with
        | [] => [[c]]
        | h :: t => (c :: h) :: t

/-- strings.Split(s, "/"): the pieces of s between slash characters. -/
def goSplitSlash (s : String) : List String :=
  (splitSlashChars s.data).map String.mk

/-- Model of the Go slice expression xs[lo:hi].  Returns none (a panic)
when the bounds are not 0 ≤ lo ≤ hi ≤ len(xs). -/
def goSlice {α : Type} (xs : List α) (lo hi : Int) : Option (List α) :=
  if 0 ≤ lo ∧ lo ≤ hi ∧ hi ≤ (xs.length : Int) then
    some ((xs.drop lo.toNat).take (hi - lo).toNat)
  else none

theorem goSlice_some {α : Type} (xs : List α) (lo hi : Int)
    (h0 : 0 ≤ lo) (hle : lo ≤ hi) (hlen : hi ≤ (xs.length : Int)) :
    goSlice xs lo hi = some ((xs.drop lo.toNat).take (hi - lo).toNat) := by
  simp [goSlice, h0, hle, hlen]

/-! ## Data model (package models) -/

/-- models.Repository. -/
structure Repository where
  owner : String
  name : String
  fullName : String
  description : String
  url : String
  htmlURL : String
  isPrivate : Bool
  lastSyncedAt : Nat
  createdAt : Nat
  updatedAt : Nat
deriving DecidableEq

/-- models.PullRequest. -/
structure PullRequest where
  repositoryFullName : String
  number : Int
  title : String
  body : String
  state : String
  url : String
  htmlURL : String
  userLogin : String
  userAvatarURL : String
  userURL : String
  userHTMLURL : String
  createdAt : Nat
  updatedAt : Nat
  closedAt : Option Nat
  mergedAt : Option Nat
deriving DecidableEq

/-- models.Issue. -/
structure Issue where
  repositoryFullName : String
  number : Int
  title : String
  body : String
  state : String
  url : String
  htmlURL : String
  userLogin : String
  userAvatarURL : String
  userURL : String
  userHTMLURL : String
  createdAt : Nat
  updatedAt : Nat
  closedAt : Option Nat
deriving DecidableEq

/-- models.Label. -/
structure Label where
  name : String
  color : String
  description : String
deriving DecidableEq

/-- models.Pagination. -/
structure Pagination where
  page : Int
  perPage : Int
  total : Int
  totalPages : Int
deriving DecidableEq

/-- models.PullRequestFilter. -/
structure PullRequestFilter where
  state : String
  author : String
  repo : String
  label : String
  sortBy : String
  direction : String
  since : Nat
  groupBy : String
  page : Int
  perPage : Int
deriving DecidableEq

/-- models.IssueFilter. -/
structure IssueFilter where
  state : String
  author : String
  repo : String
  label : String
  sortBy : String
  direction : String
  since : Nat
  groupBy : String
  page : Int
  perPage : Int
deriving DecidableEq

/-! ## GitHub client data (package github) -/

/-- github.User. -/
structure GhUser where
  login : String
  avatarURL : String
  url : String
  htmlURL : String
deriving DecidableEq

/-- github.Label. -/
structure GhLabel where
  name : String
  color : String
  description : String
deriving DecidableEq

/-- github.Repository. -/
structure GhRepository where
  owner : GhUser
  name : String
  fullName : String
  description : String
  url : String
  htmlURL : String
  isPrivate : Bool
  createdAt : Nat
  updatedAt : Nat
deriving DecidableEq

/-- github.PullRequest. -/
structure GhPullRequest where
  number : Int
  title : String
  body : String
  state : String
  url : String
  htmlURL : String
  user : GhUser
  createdAt : Nat
  updatedAt : Nat
  closedAt : Option Nat
  mergedAt : Option Nat
  labels : List GhLabel
deriving DecidableEq

/-- github.Issue. -/
structure GhIssue where
  number : Int
  title : String
  body : String
  state : String
  url : String
  htmlURL : String
  user : GhUser
  createdAt : Nat
  updatedAt : Nat
  closedAt : Option Nat
  labels : List GhLabel
deriving DecidableEq

/-! ## The in-memory cache (package memory, type Cache)

Mutating operations return the Go error value together with the cache
after the call, mirroring mutation of the receiver; an error return
always carries the cache unchanged, exactly as in the source where
every error return precedes the first mutation. -/

/-- memory.Cache: the authoritative store. -/
structure Cache where
  repositories : List (String × Repository)
  pullRequests : List (String × List (Int × PullRequest))
  issues : List (String × List (Int × Issue))
  labels : List (String × Label)
  prLabels : List (String × List (Int × List String))
  issueLabels : List (String × List (Int × List String))
deriving DecidableEq

/-- memory.NewCache. -/
def Cache.new : Cache :=
  { repositories := [], pullRequests := [], issues := [],
    labels := [], prLabels := [], issueLabels := [] }

/-- memory.Cache.AddRepository: duplicate full-name is an error;
otherwise the record is stored and empty child collections are
initialized when absent. -/
def Cache.addRepository (c : Cache) (repo : Repository) : Except String Unit × Cache :=
  let fullName := repo.owner ++ "/" ++ repo.name
  match mapFind? c.repositories fullName with
  | some _ => (.error ("repository " ++ fullName ++ " already exists"), c)
  | none =>
    let c := { c with repositories := mapInsert c.repositories fullName repo }
    let c := if (mapFind? c.pullRequests fullName).isSome then c
             else { c with pullRequests := mapInsert c.pullRequests fullName [] }
    let c := if (mapFind? c.issues fullName).isSome then c
             else { c with issues := mapInsert c.issues fullName [] }
    let c := if (mapFind? c.prLabels fullName).isSome then c
             else { c with prLabels := mapInsert c.prLabels fullName [] }
    let c := if (mapFind? c.issueLabels fullName).isSome then c
             else { c with issueLabels := mapInsert c.issueLabels fullName [] }
    (.ok (), c)

/-- memory.Cache.GetRepository. -/
def Cache.getRepository (c : Cache) (owner name : String) : Except String Repository :=
  let fullName := owner ++ "/" ++ name
  match mapFind? c.repositories fullName with
  | none => .error ("repository " ++ fullName ++ " not found")
  | some repo => .ok repo

/-- memory.Cache.UpdateRepository: replaces the record wholesale; the
full-name must be tracked. -/
def Cache.updateRepository (c : Cache) (repo : Repository) : Except String Unit × Cache :=
  let fullName := repo.owner ++ "/" ++ repo.name
  match mapFind? c.repositories fullName with
  | none => (.error ("repository " ++ fullName ++ " not found"), c)
  | some _ => (.ok (), { c with repositories := mapInsert c.repositories fullName repo })

/-- memory.Cache.DeleteRepository: removes the repository and its pull
requests, issues and label associations; the global label table is not
touched. -/
def Cache.deleteRepository (c : Cache) (owner name : String) : Except String Unit × Cache :=
  let fullName := owner ++ "/" ++ name
  match mapFind? c.repositories fullName with
  | none => (.error ("repository " ++ fullName ++ " not found"), c)
  | some _ =>
      (.ok (),
        { c with
          repositories := mapErase c.repositories fullName
          pullRequests := mapErase c.pullRequests fullName
          issues := mapErase c.issues fullName
          prLabels := mapErase c.prLabels fullName
          issueLabels := mapErase c.issueLabels fullName })

/-- memory.Cache.ListRepositories: the values of the repository map in
iteration order, sliced by the 1-indexed page; none is a slice-bounds
panic. -/
def Cache.listRepositories (c : Cache) (page perPage : Int) :
    Option (List Repository × Int) :=
  let total := c.repositories.length
  if total = 0 then some ([], 0)
  else
    let start := (page - 1) * perPage
    if start ≥ (total : Int) then some ([], (total : Int))
    else
      let e0 := start + perPage
      let e1 := if e0 > (total : Int) then (total : Int) else e0
      (goSlice (c.repositories.map (·.2)) start e1).map (fun xs => (xs, (total : Int)))

/-- memory.Cache.AddPullRequest: the owning repository must exist, the
number must be fresh within it. -/
def Cache.addPullRequest (c : Cache) (pr : PullRequest) : Except String Unit × Cache :=
  match mapFind? c.repositories pr.repositoryFullName with
  | none => (.error ("repository " ++ pr.repositoryFullName ++ " not found"), c)
  | some _ =>
    let c := if (mapFind? c.pullRequests pr.repositoryFullName).isSome then c
             else { c with pullRequests := mapInsert c.pullRequests pr.repositoryFullName [] }
    let repoMap := (mapFind? c.pullRequests pr.repositoryFullName).getD []
    match mapFind? repoMap pr.number with
    | some _ =>
        (.error ("pull request " ++ pr.repositoryFullName ++ "#" ++ toString pr.number
                  ++ " already exists"), c)
    | none =>
        let c' := { c with pullRequests := mapInsert c.pullRequests pr.repositoryFullName (mapInsert repoMap pr.number pr) }
        (.ok (), c')

/-- memory.Cache.GetPullRequest. -/
def Cache.getPullRequest (c : Cache) (repoFullName : String) (number : Int) :
    Except String PullRequest :=
  match mapFind? c.repositories repoFullName with
  | none => .error ("repository " ++ repoFullName ++ " not found")
  | some _ =>
  match mapFind? c.pullRequests repoFullName with
  | none => .error ("no pull requests found for repository " ++ repoFullName)
  | some repoMap =>
  match mapFind? repoMap number with
  | none => .error ("pull request " ++ repoFullName ++ "#" ++ toString number ++ " not found")
  | some pr => .ok pr

/-- memory.Cache.UpdatePullRequest: repository and number must exist;
the record is replaced wholesale. -/
def Cache.updatePullRequest (c : Cache) (pr : PullRequest) : Except String Unit × Cache :=
  match mapFind? c.repositories pr.repositoryFullName with
  | none => (.error ("repository " ++ pr.repositoryFullName ++ " not found"), c)
  | some _ =>
  match mapFind? c.pullRequests pr.repositoryFullName with
  | none => (.error ("no pull requests found for repository " ++ pr.repositoryFullName), c)
  | some repoMap =>
  match mapFind? repoMap pr.number with
  | none =>
      (.error ("pull request " ++ pr.repositoryFullName ++ "#" ++ toString pr.number
                ++ " not found"), c)
  | some _ =>
      let c' := { c with pullRequests := mapInsert c.pullRequests pr.repositoryFullName (mapInsert repoMap pr.number pr) }
      (.ok (), c')

/-- memory.Cache.ListPullRequests for one repository: none is a
slice-bounds panic; an untracked repository is an error. -/
def Cache.listPullRequests (c : Cache) (repoFullName : String) (page perPage : Int) :
    Option (Except String (List PullRequest × Int)) :=
  match mapFind? c.repositories repoFullName with
  | none => some (.error ("repository " ++ repoFullName ++ " not found"))
  | some _ =>
  match mapFind? c.pullRequests repoFullName with
  | none => some (.ok ([], 0))
  | some repoMap =>
    let total := repoMap.length
    let prs := repoMap.map (·.2)
    let start := (page - 1) * perPage
    if start ≥ (total : Int) then some (.ok ([], (total : Int)))
    else
      let e0 := start + perPage
      let e1 := if e0 > (total : Int) then (total : Int) else e0
      (goSlice prs start e1).map (fun xs => .ok (xs, (total : Int)))

/-- memory.Cache.AddIssue. -/
def Cache.addIssue (c : Cache) (issue : Issue) : Except String Unit × Cache :=
  match mapFind? c.repositories issue.repositoryFullName with
  | none => (.error ("repository " ++ issue.repositoryFullName ++ " not found"), c)
  | some _ =>
    let c := if (mapFind? c.issues issue.repositoryFullName).isSome then c
             else { c with issues := mapInsert c.issues issue.repositoryFullName [] }
    let repoMap := (mapFind? c.issues issue.repositoryFullName).getD []
    match mapFind? repoMap issue.number with
    | some _ =>
        (.error ("issue " ++ issue.repositoryFullName ++ "#" ++ toString issue.number
                  ++ " already exists"), c)
    | none =>
        let c' := { c with issues := mapInsert c.issues issue.repositoryFullName (mapInsert repoMap issue.number issue) }
        (.ok (), c')

/-- memory.Cache.GetIssue. -/
def Cache.getIssue (c : Cache) (repoFullName : String) (number : Int) :
    Except String Issue :=
  match mapFind? c.repositories repoFullName with
  | none => .error ("repository " ++ repoFullName ++ " not found")
  | some _ =>
  match mapFind? c.issues repoFullName with
  | none => .error ("no issues found for repository " ++ repoFullName)
  | some repoMap =>
  match mapFind? repoMap number with
  | none => .error ("issue " ++ repoFullName ++ "#" ++ toString number ++ " not found")
  | some issue => .ok issue

/-- memory.Cache.UpdateIssue. -/
def Cache.updateIssue (c : Cache) (issue : Issue) : Except String Unit × Cache :=
  match mapFind? c.repositories issue.repositoryFullName with
  | none => (.error ("repository " ++ issue.repositoryFullName ++ " not found"), c)
  | some _ =>
  match mapFind? c.issues issue.repositoryFullName with
  | none => (.error ("no issues found for repository " ++ issue.repositoryFullName), c)
  | some repoMap =>
  match mapFind? repoMap issue.number with
  | none =>
      (.error ("issue " ++ issue.repositoryFullName ++ "#" ++ toString issue.number
                ++ " not found"), c)
  | some _ =>
      let c' := { c with issues := mapInsert c.issues issue.repositoryFullName (mapInsert repoMap issue.number issue) }
      (.ok (), c')

/-- memory.Cache.ListIssues for one repository. -/
def Cache.listIssues (c : Cache) (repoFullName : String) (page perPage : Int) :
    Option (Except String (List Issue × Int)) :=
  match mapFind? c.repositories repoFullName with
  | none => some (.error ("repository " ++ repoFullName ++ " not found"))
  | some _ =>
  match mapFind? c.issues repoFullName with
  | none => some (.ok ([], 0))
  | some repoMap =>
    let total := repoMap.length
    let issues := repoMap.map (·.2)
    let start := (page - 1) * perPage
    if start ≥ (total : Int) then some (.ok ([], (total : Int)))
    else
      let e0 := start + perPage
      let e1 := if e0 > (total : Int) then (total : Int) else e0
      (goSlice issues start e1).map (fun xs => .ok (xs, (total : Int)))

/-- memory.Cache.AddLabel: labels are global, keyed only by name. -/
def Cache.addLabel (c : Cache) (label : Label) : Except String Unit × Cache :=
  match mapFind? c.labels label.name with
  | some _ => (.error ("label " ++ label.name ++ " already exists"), c)
  | none => (.ok (), { c with labels := mapInsert c.labels label.name label })

/-- memory.Cache.GetLabel. -/
def Cache.getLabel (c : Cache) (name : String) : Except String Label :=
  match mapFind? c.labels name with
  | none => .error ("label " ++ name ++ " not found")
  | some label => .ok label

/-- memory.Cache.AddPullRequestLabel: repository, pull request and
label must all exist; the association set is a Go map keyed by label
name, so insertion is idempotent. -/
def Cache.addPullRequestLabel (c : Cache) (repoFullName : String) (prNumber : Int)
    (labelName : String) : Except String Unit × Cache :=
  match mapFind? c.repositories repoFullName with
  | none => (.error ("repository " ++ repoFullName ++ " not found"), c)
  | some _ =>
  match mapFind? c.pullRequests repoFullName with
  | none => (.error ("no pull requests found for repository " ++ repoFullName), c)
  | some repoMap =>
  match mapFind? repoMap prNumber with
  | none =>
      (.error ("pull request " ++ repoFullName ++ "#" ++ toString prNumber ++ " not found"), c)
  | some _ =>
  match mapFind? c.labels labelName with
  | none => (.error ("label " ++ labelName ++ " not found"), c)
  | some _ =>
    let byNumber := (mapFind? c.prLabels repoFullName).getD []
    let labelSet := (mapFind? byNumber prNumber).getD []
    let labelSet := if labelSet.contains labelName then labelSet else labelSet ++ [labelName]
    let c' := { c with prLabels := mapInsert c.prLabels repoFullName (mapInsert byNumber prNumber labelSet) }
    (.ok (), c')

/-- memory.Cache.AddIssueLabel. -/
def Cache.addIssueLabel (c : Cache) (repoFullName : String) (issueNumber : Int)
    (labelName : String) : Except String Unit × Cache :=
  match mapFind? c.repositories repoFullName with
  | none => (.error ("repository " ++ repoFullName ++ " not found"), c)
  | some _ =>
  match mapFind? c.issues repoFullName with
  | none => (.error ("no issues found for repository " ++ repoFullName), c)
  | some repoMap =>
  match mapFind? repoMap issueNumber with
  | none =>
      (.error ("issue " ++ repoFullName ++ "#" ++ toString issueNumber ++ " not found"), c)
  | some _ =>
  match mapFind? c.labels labelName with
  | none => (.error ("label " ++ labelName ++ " not found"), c)
  | some _ =>
    let byNumber := (mapFind? c.issueLabels repoFullName).getD []
    let labelSet := (mapFind? byNumber issueNumber).getD []
    let labelSet := if labelSet.contains labelName then labelSet else labelSet ++ [labelName]
    let c' := { c with issueLabels := mapInsert c.issueLabels repoFullName (mapInsert byNumber issueNumber labelSet) }
    (.ok (), c')

/-! ## The service layer (package service)

A Service holds the cache and the transient sync-status map guarded by
syncMutex.  Each mutex-protected status update is one atomic step; the
trace of a sync cycle records the status map after every such step, so
that states observable by a concurrent GetStatus call are explicit. -/

/-- service.Service: cache plus the syncStatus map. -/
structure Service where
  cache : Cache
  syncStatus : List (String × String)
deriving DecidableEq

/-- service.ErrInvalidRepositoryName. -/
def errInvalidRepositoryName : String := "invalid repository name format"

/-- service.ErrRepositoryNotFound. -/
def errRepositoryNotFound : String := "repository not found"

/-- Label reconciliation step shared by the pull-request loop: get or
lazily create the label, then attach it, ignoring attach errors.  A
failed create skips the attach (the continue in the source). -/
def processPRLabel (repoFullName : String) (number : Int) (c : Cache)
    (ghLabel : GhLabel) : Cache :=
  let label : Label :=
    { name := ghLabel.name, color := ghLabel.color, description := ghLabel.description }
  let afterEnsure : Option Cache :=
    match c.getLabel ghLabel.name with
    | .ok _ => some c
    | .error _ =>
        match c.addLabel label with
        | (.error _, _) => none
        | (.ok _, c') => some c'
  match afterEnsure with
  | none => c
  | some c' => (c'.addPullRequestLabel repoFullName number ghLabel.name).2

/-- One iteration of the pull-request reconciliation loop of
Service.syncPullRequests: build the model, insert or update by
(repository, number), then reconcile labels; per-item failures are
swallowed (the item and its labels are skipped). -/
def processPR (repoFullName : String) (c : Cache) (ghPR : GhPullRequest) : Cache :=
  let pr : PullRequest :=
    { repositoryFullName := repoFullName
      number := ghPR.number
      title := ghPR.title
      body := ghPR.body
      state := ghPR.state
      url := ghPR.url
      htmlURL := ghPR.htmlURL
      userLogin := ghPR.user.login
      userAvatarURL := ghPR.user.avatarURL
      userURL := ghPR.user.url
      userHTMLURL := ghPR.user.htmlURL
      createdAt := ghPR.createdAt
      updatedAt := ghPR.updatedAt
      closedAt := ghPR.closedAt
      mergedAt := ghPR.mergedAt }
  let afterUpsert : Option Cache :=
    match c.getPullRequest repoFullName ghPR.number with
    | .ok _ =>
        match c.updatePullRequest pr with
        | (.error _, _) => none
        | (.ok _, c') => some c'
    | .error _ =>
        match c.addPullRequest pr with
        | (.error _, _) => none
        | (.ok _, c') => some c'
  match afterUpsert with
  | none => c
  | some c' => ghPR.labels.foldl (processPRLabel repoFullName ghPR.number) c'

/-- Service.syncPullRequests: fetch one page of pull requests from the
external source (the fetch outcome is the prFetch parameter) and
reconcile them into the cache.  A fetch failure, or an untracked
repository, is fatal to the stage and leaves the cache unchanged. -/
def Service.syncPullRequests (c : Cache) (owner name : String)
    (prFetch : Except String (List GhPullRequest)) : Except String Unit × Cache :=
  match c.getRepository owner name with
  | .error e => (.error ("repository not found: " ++ e), c)
  | .ok repo =>
    match prFetch with
    | .error e => (.error ("failed to list pull requests: " ++ e), c)
    | .ok prs => (.ok (), prs.foldl (processPR repo.fullName) c)

/-- Label reconciliation step of the issue loop. -/
def processIssueLabel (repoFullName : String) (number : Int) (c : Cache)
    (ghLabel : GhLabel) : Cache :=
  let label : Label :=
    { name := ghLabel.name, color := ghLabel.color, description := ghLabel.description }
  let afterEnsure : Option Cache :=
    match c.getLabel ghLabel.name with
    | .ok _ => some c
    | .error _ =>
        match c.addLabel label with
        | (.error _, _) => none
        | (.ok _, c') => some c'
  match afterEnsure with
  | none => c
  | some c' => (c'.addIssueLabel repoFullName number ghLabel.name).2

/-- One iteration of the issue reconciliation loop of
Service.syncIssues. -/
def processIssue (repoFullName : String) (c : Cache) (ghIssue : GhIssue) : Cache :=
  let issue : Issue :=
    { repositoryFullName := repoFullName
      number := ghIssue.number
      title := ghIssue.title
      body := ghIssue.body
      state := ghIssue.state
      url := ghIssue.url
      htmlURL := ghIssue.htmlURL
      userLogin := ghIssue.user.login
      userAvatarURL := ghIssue.user.avatarURL
      userURL := ghIssue.user.url
      userHTMLURL := ghIssue.user.htmlURL
      createdAt := ghIssue.createdAt
      updatedAt := ghIssue.updatedAt
      closedAt := ghIssue.closedAt }
  let afterUpsert : Option Cache :=
    match c.getIssue repoFullName ghIssue.number with
    | .ok _ =>
        match c.updateIssue issue with
        | (.error _, _) => none
        | (.ok _, c') => some c'
    | .error _ =>
        match c.addIssue issue with
        | (.error _, _) => none
        | (.ok _, c') => some c'
  match afterUpsert with
  | none => c
  | some c' => ghIssue.labels.foldl (processIssueLabel repoFullName ghIssue.number) c'

/-- Service.syncIssues. -/
def Service.syncIssues (c : Cache) (owner name : String)
    (issueFetch : Except String (List GhIssue)) : Except String Unit × Cache :=
  match c.getRepository owner name with
  | .error e => (.error ("repository not found: " ++ e), c)
  | .ok repo =>
    match issueFetch with
    | .error e => (.error ("failed to list issues: " ++ e), c)
    | .ok issues => (.ok (), issues.foldl (processIssue repo.fullName) c)

/-- Outcome of one sync cycle: final service state, the trace of
sync-status maps after each mutex-protected status update (the deferred
deletion included, as its own last step), and the returned error. -/
structure SyncOutcome where
  state : Service
  trace : List (List (String × String))
  result : Except String Unit

/-- Service.syncRepository: one complete sync cycle for owner/name.
Marks the status syncing, runs the pull-request stage then the issue
stage, on full success advances LastSyncedAt to now via
UpdateRepository, and on every exit path the deferred function deletes
the sync-status entry. -/
def Service.syncRepository (s : Service) (owner name : String)
    (prFetch : Except String (List GhPullRequest))
    (issueFetch : Except String (List GhIssue)) (now : Nat) : SyncOutcome :=
  let fullName := owner ++ "/" ++ name
  let st1 := mapInsert s.syncStatus fullName "syncing"
  match s.cache.getRepository owner name with
  | .error e =>
      let st2 := mapInsert st1 fullName ("error: " ++ e)
      let st3 := mapErase st2 fullName
      { state := { cache := s.cache, syncStatus := st3 }
        trace := [st1, st2, st3]
        result := .error ("repository not found: " ++ e) }
  | .ok repo =>
      match Service.syncPullRequests s.cache owner name prFetch with
      | (.error e, c₁) =>
          let st2 := mapInsert st1 fullName ("error syncing pull requests: " ++ e)
          let st3 := mapErase st2 fullName
          { state := { cache := c₁, syncStatus := st3 }
            trace := [st1, st2, st3]
            result := .error ("failed to sync pull requests: " ++ e) }
      | (.ok _, c₁) =>
          match Service.syncIssues c₁ owner name issueFetch with
          | (.error e, c₂) =>
              let st2 := mapInsert st1 fullName ("error syncing issues: " ++ e)
              let st3 := mapErase st2 fullName
              { state := { cache := c₂, syncStatus := st3 }
                trace := [st1, st2, st3]
                result := .error ("failed to sync issues: " ++ e) }
          | (.ok _, c₂) =>
              let repo' := { repo with lastSyncedAt := now }
              let st2 := mapErase st1 fullName
              match c₂.updateRepository repo' with
              | (.error e, c₃) =>
                  { state := { cache := c₃, syncStatus := st2 }
                    trace := [st1, st2]
                    result := .error ("failed to update last synced time: " ++ e) }
              | (.ok _, c₃) =>
                  { state := { cache := c₃, syncStatus := st2 }
                    trace := [st1, st2]
                    result := .ok () }

/-- Outcome of Service.AddRepository: the returned record or error, the
service state when the call returns, and whether a background sync
cycle was dispatched. -/
structure AddRepoOutcome where
  result : Except String Repository
  state : Service
  syncDispatched : Bool

/-- Service.AddRepository: parse the full name, return the existing
record if the repository is already cached (no fetch, no write, no
dispatch), otherwise fetch the repository from the external source (the
ghFetch parameter), store it with LastSyncedAt set to the add time, and
dispatch a background sync. -/
def Service.addRepository (s : Service) (fullName : String)
    (ghFetch : Except String GhRepository) (addTime : Nat) : AddRepoOutcome :=
  match goSplitSlash fullName with
  | [owner, name] =>
      (match s.cache.getRepository owner name with
       | .ok existingRepo => { result := .ok existingRepo, state := s, syncDispatched := false }
       | .error _ =>
          match ghFetch with
          | .error e =>
              { result := .error ("failed to get repository from GitHub: " ++ e)
                state := s, syncDispatched := false }
          | .ok ghRepo =>
              let repo : Repository :=
                { owner := ghRepo.owner.login
                  name := ghRepo.name
                  fullName := ghRepo.fullName
                  description := ghRepo.description
                  url := ghRepo.url
                  htmlURL := ghRepo.htmlURL
                  isPrivate := ghRepo.isPrivate
                  lastSyncedAt := addTime
                  createdAt := ghRepo.createdAt
                  updatedAt := ghRepo.updatedAt }
              match s.cache.addRepository repo with
              | (.error e, c') =>
                  { result := .error ("failed to add repository to cache: " ++ e)
                    state := { s with cache := c' }, syncDispatched := false }
              | (.ok _, c') =>
                  { result := .ok repo
                    state := { s with cache := c' }, syncDispatched := true })
  | _ => { result := .error errInvalidRepositoryName, state := s, syncDispatched := false }

/-- The repository counters of Service.GetStatus: total tracked
repositories, the syncing count (the size of the whole syncStatus map)
and the errored count (entries whose status string starts with
"error"). -/
def Service.getStatusCounts (total : Nat) (syncStatus : List (String × String)) :
    Nat × Nat × Nat :=
  (total, syncStatus.length,
    (syncStatus.filter (fun p => strHasPfx p.2 "error")).length)

/-! ## The query engine (Service.listAllPullRequests / listAllIssues)

The two source functions are line-for-line identical up to the item
type; the shared pagination tail is factored into `paginate`. -/

/-- strings.EqualFold restricted to simple case folding. -/
def eqFold (a b : String) : Bool :=
  String.mk (a.data.map Char.toLower) == String.mk (b.data.map Char.toLower)

/-- Insertion of one element into a sorted run, used to model the
sort.Slice call (an unstable, implementation-defined comparison sort in
the source; only the comparator and the permutation property are
specified, so a structural insertion sort is used here). -/
def insertSorted {α : Type} (less : α → α → Bool) (x : α) : List α → List α
  | [] => [x]
  | y :: ys => if less y x then y :: insertSorted less x ys else x :: y :: ys

/-- The sort.Slice model: comparison sort with the given strict
comparator. -/
def sortByLess {α : Type} (less : α → α → Bool) : List α → List α
  | [] => []
  | x :: xs => insertSorted less x (sortByLess less xs)

theorem length_insertSorted {α : Type} (less : α → α → Bool) (x : α) (l : List α) :
    (insertSorted less x l).length = l.length + 1 := by
  induction l with
  | nil => rfl
  | cons y ys ih =>
      by_cases h : less y x = true
      · simp [insertSorted, h, ih]
      · simp [insertSorted, h]

theorem length_sortByLess {α : Type} (less : α → α → Bool) (l : List α) :
    (sortByLess less l).length = l.length := by
  induction l with
  | nil => rfl
  | cons x xs ih => simp [sortByLess, length_insertSorted, ih]

/-- The pagination tail shared by listAllPullRequests and listAllIssues:
compute the total over the sorted post-filter set, the pagination
descriptor with totalPages = (total + perPage - 1) / perPage in Go
truncated integer division, return an empty slice when the start offset
is at or past the end, else the page slice.  none is a runtime panic
(division by zero or slice out of bounds). -/
def paginate {α : Type} (page perPage : Int) (sorted : List α) :
    Option (List α × Pagination) :=
  let total : Int := sorted.length
  let start := (page - 1) * perPage
  if perPage = 0 then none
  else
    let pg : Pagination :=
      { page := page, perPage := perPage, total := total,
        totalPages := Int.tdiv (total + perPage - 1) perPage }
    if start ≥ total then some ([], pg)
    else
      let e0 := start + perPage
      let e1 := if e0 > total then total else e0
      (goSlice sorted start e1).map (fun items => (items, pg))

/-- Repository-scope resolution of listAllPullRequests: a nonempty
scope must be owner/name and tracked, otherwise every tracked
repository (first 1000) is scanned. -/
def resolveScope (c : Cache) (repoScope : String) :
    Option (Except String (List Repository)) :=
  if repoScope ≠ "" then
    match goSplitSlash repoScope with
    | [owner, name] =>
        (match c.getRepository owner name with
         | .error _ => some (.error errRepositoryNotFound)
         | .ok repo => some (.ok [repo]))
    | _ => some (.error errInvalidRepositoryName)
  else
    match c.listRepositories 1 1000 with
    | none => none
    | some (repos, _) => some (.ok repos)

/-- The collection loop of listAllPullRequests: the first 1000 pull
requests of every scanned repository, with per-repository listing
errors swallowed. -/
def collectPRs (c : Cache) : List Repository → Option (List PullRequest)
  | [] => some []
  | repo :: rest =>
      match c.listPullRequests repo.fullName 1 1000 with
      | none => none
      | some (.error _) => collectPRs c rest
      | some (.ok (prs, _)) => (collectPRs c rest).map (fun acc => prs ++ acc)

/-- The state/author filter of listAllPullRequests (both matches are
case-insensitive; the label filter is not implemented in the source). -/
def prMatches (filter : PullRequestFilter) (pr : PullRequest) : Bool :=
  (filter.state == "" || eqFold pr.state filter.state)
    && (filter.author == "" || eqFold pr.userLogin filter.author)

/-- The comparator of the sort.Slice call: creation time ascending when
direction is asc, else descending. -/
def prBefore (filter : PullRequestFilter) (a b : PullRequest) : Bool :=
  if filter.direction == "asc" then a.createdAt < b.createdAt
  else b.createdAt < a.createdAt

/-- Service.listAllPullRequests: resolve the scope, collect, filter,
sort by creation time, paginate. -/
def Service.listAllPullRequests (c : Cache) (filter : PullRequestFilter) :
    Option (Except String (List PullRequest × Pagination)) :=
  match resolveScope c filter.repo with
  | none => none
  | some (.error e) => some (.error e)
  | some (.ok repos) =>
      match collectPRs c repos with
      | none => none
      | some allPRs =>
          let filteredPRs := allPRs.filter (prMatches filter)
          let sorted := sortByLess (prBefore filter) filteredPRs
          match paginate filter.page filter.perPage sorted with
          | none => none
          | some (items, pg) => some (.ok (items, pg))

/-- The collection loop of listAllIssues. -/
def collectIssues (c : Cache) : List Repository → Option (List Issue)
  | [] => some []
  | repo :: rest =>
      match c.listIssues repo.fullName 1 1000 with
      | none => none
      | some (.error _) => collectIssues c rest
      | some (.ok (issues, _)) => (collectIssues c rest).map (fun acc => issues ++ acc)

/-- The state/author filter of listAllIssues. -/
def issueMatches (filter : IssueFilter) (issue : Issue) : Bool :=
  (filter.state == "" || eqFold issue.state filter.state)
    && (filter.author == "" || eqFold issue.userLogin filter.author)

/-- The comparator of the issue sort. -/
def issueBefore (filter : IssueFilter) (a b : Issue) : Bool :=
  if filter.direction == "asc" then a.createdAt < b.createdAt
  else b.createdAt < a.createdAt

/-- Service.listAllIssues. -/
def Service.listAllIssues (c : Cache) (filter : IssueFilter) :
    Option (Except String (List Issue × Pagination)) :=
  match resolveScope c filter.repo with
  | none => none
  | some (.error e) => some (.error e)
  | some (.ok repos) =>
      match collectIssues c repos with
      | none => none
      | some allIssues =>
          let filteredIssues := allIssues.filter (issueMatches filter)
          let sorted := sortByLess (issueBefore filter) filteredIssues
          match paginate filter.page filter.perPage sorted with
          | none => none
          | some (items, pg) => some (.ok (items, pg))

/-! ## Field-preservation lemmas for the cache operations -/

theorem addPullRequest_repositories (c : Cache) (pr : PullRequest) :
    (c.addPullRequest pr).2.repositories = c.repositories := by
  unfold Cache.addPullRequest
  repeat' (first | rfl | split | dsimp only)

theorem updatePullRequest_repositories (c : Cache) (pr : PullRequest) :
    (c.updatePullRequest pr).2.repositories = c.repositories := by
  unfold Cache.updatePullRequest
  repeat' (first | rfl | split | dsimp only)

theorem addIssue_repositories (c : Cache) (issue : Issue) :
    (c.addIssue issue).2.repositories = c.repositories := by
  unfold Cache.addIssue
  repeat' (first | rfl | split | dsimp only)

theorem updateIssue_repositories (c : Cache) (issue : Issue) :
    (c.updateIssue issue).2.repositories = c.repositories := by
  unfold Cache.updateIssue
  repeat' (first | rfl | split | dsimp only)

theorem addLabel_repositories (c : Cache) (label : Label) :
    (c.addLabel label).2.repositories = c.repositories := by
  unfold Cache.addLabel
  repeat' (first | rfl | split | dsimp only)

theorem addPullRequestLabel_repositories (c : Cache) (fn : String) (n : Int) (l : String) :
    (c.addPullRequestLabel fn n l).2.repositories = c.repositories := by
  unfold Cache.addPullRequestLabel
  repeat' (first | rfl | split | dsimp only)

theorem addIssueLabel_repositories (c : Cache) (fn : String) (n : Int) (l : String) :
    (c.addIssueLabel fn n l).2.repositories = c.repositories := by
  unfold Cache.addIssueLabel
  repeat' (first | rfl | split | dsimp only)

theorem processPRLabel_repositories (fn : String) (n : Int) (c : Cache) (gl : GhLabel) :
    (processPRLabel fn n c gl).repositories = c.repositories := by
  unfold processPRLabel
  dsimp only
  split
  · rfl
  · rename_i c' heq
    rw [addPullRequestLabel_repositories]
    revert heq
    split
    · intro heq
      cases heq
      rfl
    · split <;> intro heq <;> rename_i heq2
      · cases heq
      · cases heq
        have h2 := addLabel_repositories c
          { name := gl.name, color := gl.color, description := gl.description }
        rw [heq2] at h2
        exact h2

theorem processIssueLabel_repositories (fn : String) (n : Int) (c : Cache) (gl : GhLabel) :
    (processIssueLabel fn n c gl).repositories = c.repositories := by
  unfold processIssueLabel
  dsimp only
  split
  · rfl
  · rename_i c' heq
    rw [addIssueLabel_repositories]
    revert heq
    split
    · intro heq
      cases heq
      rfl
    · split <;> intro heq <;> rename_i heq2
      · cases heq
      · cases heq
        have h2 := addLabel_repositories c
          { name := gl.name, color := gl.color, description := gl.description }
        rw [heq2] at h2
        exact h2

theorem foldl_processPRLabel_repositories (fn : String) (n : Int) (ls : List GhLabel)
    (c : Cache) :
    (ls.foldl (processPRLabel fn n) c).repositories = c.repositories := by
  induction ls generalizing c with
  | nil => rfl
  | cons l ls ih => rw [List.foldl_cons, ih, processPRLabel_repositories]

theorem foldl_processIssueLabel_repositories (fn : String) (n : Int) (ls : List GhLabel)
    (c : Cache) :
    (ls.foldl (processIssueLabel fn n) c).repositories = c.repositories := by
  induction ls generalizing c with
  | nil => rfl
  | cons l ls ih => rw [List.foldl_cons, ih, processIssueLabel_repositories]

theorem processPR_repositories (fn : String) (c : Cache) (gh : GhPullRequest) :
    (processPR fn c gh).repositories = c.repositories := by
  unfold processPR
  dsimp only
  split
  · rfl
  · rename_i c' heq
    rw [foldl_processPRLabel_repositories]
    revert heq
    split
    · split <;> intro heq <;> rename_i heq2
      · cases heq
      · cases heq
        have h2 := updatePullRequest_repositories c
          { repositoryFullName := fn, number := gh.number, title := gh.title, body := gh.body,
            state := gh.state, url := gh.url, htmlURL := gh.htmlURL,
            userLogin := gh.user.login, userAvatarURL := gh.user.avatarURL,
            userURL := gh.user.url, userHTMLURL := gh.user.htmlURL,
            createdAt := gh.createdAt, updatedAt := gh.updatedAt, closedAt := gh.closedAt,
            mergedAt := gh.mergedAt }
        rw [heq2] at h2
        exact h2
    · split <;> intro heq <;> rename_i heq2
      · cases heq
      · cases heq
        have h2 := addPullRequest_repositories c
          { repositoryFullName := fn, number := gh.number, title := gh.title, body := gh.body,
            state := gh.state, url := gh.url, htmlURL := gh.htmlURL,
            userLogin := gh.user.login, userAvatarURL := gh.user.avatarURL,
            userURL := gh.user.url, userHTMLURL := gh.user.htmlURL,
            createdAt := gh.createdAt, updatedAt := gh.updatedAt, closedAt := gh.closedAt,
            mergedAt := gh.mergedAt }
        rw [heq2] at h2
        exact h2

theorem processIssue_repositories (fn : String) (c : Cache) (gh : GhIssue) :
    (processIssue fn c gh).repositories = c.repositories := by
  unfold processIssue
  dsimp only
  split
  · rfl
  · rename_i c' heq
    rw [foldl_processIssueLabel_repositories]
    revert heq
    split
    · split <;> intro heq <;> rename_i heq2
      · cases heq
      · cases heq
        have h2 := updateIssue_repositories c
          { repositoryFullName := fn, number := gh.number, title := gh.title, body := gh.body,
            state := gh.state, url := gh.url, htmlURL := gh.htmlURL,
            userLogin := gh.user.login, userAvatarURL := gh.user.avatarURL,
            userURL := gh.user.url, userHTMLURL := gh.user.htmlURL,
            createdAt := gh.createdAt, updatedAt := gh.updatedAt, closedAt := gh.closedAt }
        rw [heq2] at h2
        exact h2
    · split <;> intro heq <;> rename_i heq2
      · cases heq
      · cases heq
        have h2 := addIssue_repositories c
          { repositoryFullName := fn, number := gh.number, title := gh.title, body := gh.body,
            state := gh.state, url := gh.url, htmlURL := gh.htmlURL,
            userLogin := gh.user.login, userAvatarURL := gh.user.avatarURL,
            userURL := gh.user.url, userHTMLURL := gh.user.htmlURL,
            createdAt := gh.createdAt, updatedAt := gh.updatedAt, closedAt := gh.closedAt }
        rw [heq2] at h2
        exact h2

theorem foldl_processPR_repositories (fn : String) (prs : List GhPullRequest) (c : Cache) :
    (prs.foldl (processPR fn) c).repositories = c.repositories := by
  induction prs generalizing c with
  | nil => rfl
  | cons p ps ih => rw [List.foldl_cons, ih, processPR_repositories]

theorem foldl_processIssue_repositories (fn : String) (issues : List GhIssue) (c : Cache) :
    (issues.foldl (processIssue fn) c).repositories = c.repositories := by
  induction issues generalizing c with
  | nil => rfl
  | cons i is ih => rw [List.foldl_cons, ih, processIssue_repositories]

theorem syncPullRequests_repositories (c : Cache) (owner name : String)
    (prFetch : Except String (List GhPullRequest)) :
    (Service.syncPullRequests c owner name prFetch).2.repositories = c.repositories := by
  unfold Service.syncPullRequests
  repeat' (first | rfl | split | dsimp only)
  exact foldl_processPR_repositories ..

theorem syncIssues_repositories (c : Cache) (owner name : String)
    (issueFetch : Except String (List GhIssue)) :
    (Service.syncIssues c owner name issueFetch).2.repositories = c.repositories := by
  unfold Service.syncIssues
  repeat' (first | rfl | split | dsimp only)
  exact foldl_processIssue_repositories ..

theorem getRepository_congr {c c' : Cache} (owner name : String)
    (h : c'.repositories = c.repositories) :
    c'.getRepository owner name = c.getRepository owner name := by
  unfold Cache.getRepository
  rw [h]

theorem syncPullRequests_error_cache (c : Cache) (owner name : String)
    (prFetch : Except String (List GhPullRequest)) (e : String) (c' : Cache)
    (h : Service.syncPullRequests c owner name prFetch = (.error e, c')) : c' = c := by
  revert h
  unfold Service.syncPullRequests
  split
  · intro h
    cases h
    rfl
  · split
    · intro h
      cases h
      rfl
    · intro h
      cases h

theorem syncIssues_error_cache (c : Cache) (owner name : String)
    (issueFetch : Except String (List GhIssue)) (e : String) (c' : Cache)
    (h : Service.syncIssues c owner name issueFetch = (.error e, c')) : c' = c := by
  revert h
  unfold Service.syncIssues
  split
  · intro h
    cases h
    rfl
  · split
    · intro h
      cases h
      rfl
    · intro h
      cases h

/-! ## Concrete fixtures used by witnesses and counterexamples -/

def repoAB : Repository :=
  { owner := "a", name := "b", fullName := "a/b", description := "", url := "",
    htmlURL := "", isPrivate := false, lastSyncedAt := 0, createdAt := 0, updatedAt := 0 }

def repoCD : Repository :=
  { owner := "c", name := "d", fullName := "c/d", description := "", url := "",
    htmlURL := "", isPrivate := false, lastSyncedAt := 0, createdAt := 0, updatedAt := 0 }

def labelBug : Label := { name := "bug", color := "red", description := "" }

def prOne : PullRequest :=
  { repositoryFullName := "a/b", number := 1, title := "t1", body := "", state := "open",
    url := "", htmlURL := "", userLogin := "u", userAvatarURL := "", userURL := "",
    userHTMLURL := "", createdAt := 3, updatedAt := 3, closedAt := none, mergedAt := none }

def prTwo : PullRequest :=
  { repositoryFullName := "c/d", number := 2, title := "t2", body := "", state := "closed",
    url := "", htmlURL := "", userLogin := "v", userAvatarURL := "", userURL := "",
    userHTMLURL := "", createdAt := 5, updatedAt := 5, closedAt := some 6, mergedAt := none }

def issueOne : Issue :=
  { repositoryFullName := "a/b", number := 1, title := "i1", body := "", state := "open",
    url := "", htmlURL := "", userLogin := "u", userAvatarURL := "", userURL := "",
    userHTMLURL := "", createdAt := 4, updatedAt := 4, closedAt := none }

/-- A cache tracking the single repository a/b with empty collections. -/
def cacheAB : Cache :=
  { repositories := [("a/b", repoAB)], pullRequests := [("a/b", [])],
    issues := [("a/b", [])], labels := [], prLabels := [("a/b", [])],
    issueLabels := [("a/b", [])] }

/-- A cache tracking a/b and c/d with pull requests, issues, a label and
label associations. -/
def cacheTwo : Cache :=
  { repositories := [("a/b", repoAB), ("c/d", repoCD)]
    pullRequests := [("a/b", [(1, prOne)]), ("c/d", [(2, prTwo)])]
    issues := [("a/b", [(1, issueOne)]), ("c/d", [])]
    labels := [("bug", labelBug)]
    prLabels := [("a/b", [(1, ["bug"])])]
    issueLabels := [("a/b", [(1, ["bug"])])] }

def svcAB : Service := { cache := cacheAB, syncStatus := [] }

/-! ## C6: existence checks of the add operations -/

/-- C6: adding a repository whose full name is already tracked fails
with the already-exists error and leaves the cache unchanged; adding a
pull request or issue whose owning repository is untracked fails with
the not-found error and leaves the cache unchanged. -/
theorem C6_add_existence_checks :
    (∀ (c : Cache) (repo r₀ : Repository),
      mapFind? c.repositories (repo.owner ++ "/" ++ repo.name) = some r₀ →
      c.addRepository repo =
        (.error ("repository " ++ (repo.owner ++ "/" ++ repo.name) ++ " already exists"), c))
    ∧ (∀ (c : Cache) (pr : PullRequest),
      mapFind? c.repositories pr.repositoryFullName = none →
      c.addPullRequest pr =
        (.error ("repository " ++ pr.repositoryFullName ++ " not found"), c))
    ∧ (∀ (c : Cache) (issue : Issue),
      mapFind? c.repositories issue.repositoryFullName = none →
      c.addIssue issue =
        (.error ("repository " ++ issue.repositoryFullName ++ " not found"), c)) := by
  refine ⟨fun c repo r₀ h => ?_, fun c pr h => ?_, fun c issue h => ?_⟩
  · simp [Cache.addRepository, h]
  · simp [Cache.addPullRequest, h]
  · simp [Cache.addIssue, h]

/-- Witness for C6 at concrete inputs: a duplicate add of a/b and a
pull request and an issue for the untracked repository x/y. -/
theorem C6_add_existence_checks_witness :
    (mapFind? cacheAB.repositories (repoAB.owner ++ "/" ++ repoAB.name) = some repoAB
      ∧ cacheAB.addRepository repoAB = (.error "repository a/b already exists", cacheAB))
    ∧ (mapFind? cacheAB.repositories "x/y" = none
      ∧ cacheAB.addPullRequest { prOne with repositoryFullName := "x/y" }
          = (.error "repository x/y not found", cacheAB))
    ∧ (mapFind? cacheAB.repositories "x/y" = none
      ∧ cacheAB.addIssue { issueOne with repositoryFullName := "x/y" }
          = (.error "repository x/y not found", cacheAB)) :=
  ⟨⟨rfl, C6_add_existence_checks.1 cacheAB repoAB repoAB rfl⟩,
   ⟨rfl, C6_add_existence_checks.2.1 cacheAB { prOne with repositoryFullName := "x/y" } rfl⟩,
   ⟨rfl, C6_add_existence_checks.2.2 cacheAB { issueOne with repositoryFullName := "x/y" } rfl⟩⟩

/-! ## C7: idempotent label attachment -/

theorem contains_setInsert (l : List String) (a : String) :
    (if l.contains a then l else l ++ [a]).contains a = true := by
  by_cases h : l.contains a
  · rw [if_pos h]
    exact h
  · rw [if_neg h]
    simp

theorem count_setInsert (l : List String) (a : String) (h : l.count a ≤ 1) :
    (if l.contains a then l else l ++ [a]).count a = 1 := by
  by_cases hc : l.contains a
  · rw [if_pos hc]
    have hmem : a ∈ l := by simpa using hc
    have hpos : 0 < l.count a := List.count_pos_iff.mpr hmem
    omega
  · rw [if_neg hc]
    have hmem : a ∉ l := by simpa using hc
    have hz : l.count a = 0 := List.count_eq_zero.mpr hmem
    simp [List.count_append, hz]

/-- Characterization of a successful AddPullRequestLabel call: all four
existence checks pass and the label name is inserted into the
association set of the pull request. -/
theorem addPullRequestLabel_ok (c : Cache) (fn : String) (n : Int) (labelName : String)
    (r₀ : Repository) (repoMap : List (Int × PullRequest)) (pr : PullRequest) (l₀ : Label)
    (hrepo : mapFind? c.repositories fn = some r₀)
    (hprm : mapFind? c.pullRequests fn = some repoMap)
    (hpr : mapFind? repoMap n = some pr)
    (hlab : mapFind? c.labels labelName = some l₀) :
    c.addPullRequestLabel fn n labelName = (.ok (), { c with prLabels := mapInsert c.prLabels fn (mapInsert ((mapFind? c.prLabels fn).getD []) n (if (((mapFind? ((mapFind? c.prLabels fn).getD []) n).getD []).contains labelName) then ((mapFind? ((mapFind? c.prLabels fn).getD []) n).getD []) else ((mapFind? ((mapFind? c.prLabels fn).getD []) n).getD []) ++ [labelName])) }) := by
  unfold Cache.addPullRequestLabel
  rw [hrepo]
  dsimp only
  rw [hprm]
  dsimp only
  rw [hpr]
  dsimp only
  rw [hlab]

/-- C7: attaching a label to an existing pull request succeeds, a second
identical attach succeeds and leaves the state unchanged, and the final
association set holds the label exactly once.  The count hypothesis is
the Go map invariant that a set holds a key at most once. -/
theorem C7_label_attach_idempotent (c : Cache) (fn : String) (n : Int) (labelName : String)
    (r₀ : Repository) (repoMap : List (Int × PullRequest)) (pr : PullRequest) (l₀ : Label)
    (hrepo : mapFind? c.repositories fn = some r₀)
    (hprm : mapFind? c.pullRequests fn = some repoMap)
    (hpr : mapFind? repoMap n = some pr)
    (hlab : mapFind? c.labels labelName = some l₀)
    (hwf : ((mapFind? ((mapFind? c.prLabels fn).getD []) n).getD []).count labelName ≤ 1) :
    (c.addPullRequestLabel fn n labelName).1 = .ok ()
    ∧ (c.addPullRequestLabel fn n labelName).2.addPullRequestLabel fn n labelName
        = (.ok (), (c.addPullRequestLabel fn n labelName).2)
    ∧ ((mapFind? ((mapFind? (c.addPullRequestLabel fn n labelName).2.prLabels fn).getD [])
          n).getD []).count labelName = 1 := by
  have hstep := addPullRequestLabel_ok c fn n labelName r₀ repoMap pr l₀ hrepo hprm hpr hlab
  refine ⟨by rw [hstep], ?_, ?_⟩
  · have hr2 : mapFind? (c.addPullRequestLabel fn n labelName).2.repositories fn = some r₀ := by
      rw [hstep]
      exact hrepo
    have hm2 : mapFind? (c.addPullRequestLabel fn n labelName).2.pullRequests fn
        = some repoMap := by
      rw [hstep]
      exact hprm
    have hl2 : mapFind? (c.addPullRequestLabel fn n labelName).2.labels labelName
        = some l₀ := by
      rw [hstep]
      exact hlab
    have hstep2 := addPullRequestLabel_ok (c.addPullRequestLabel fn n labelName).2
      fn n labelName r₀ repoMap pr l₀ hr2 hm2 hpr hl2
    rw [hstep2, hstep]
    dsimp only
    rw [mapFind?_insert_self, Option.getD_some, mapFind?_insert_self, Option.getD_some,
        contains_setInsert, if_pos rfl, mapInsert_insert_same, mapInsert_insert_same]
  · rw [hstep]
    dsimp only
    rw [mapFind?_insert_self, Option.getD_some, mapFind?_insert_self, Option.getD_some]
    exact count_setInsert _ _ hwf

/-- Witness for C7: attach the label bug to pull request 1 of a/b in
the two-repository fixture. -/
theorem C7_label_attach_idempotent_witness :
    (mapFind? cacheTwo.repositories "a/b" = some repoAB
      ∧ mapFind? cacheTwo.pullRequests "a/b" = some [(1, prOne)]
      ∧ mapFind? [(1, prOne)] (1 : Int) = some prOne
      ∧ mapFind? cacheTwo.labels "bug" = some labelBug
      ∧ ((mapFind? ((mapFind? cacheTwo.prLabels "a/b").getD []) 1).getD []).count "bug" ≤ 1)
    ∧ ((cacheTwo.addPullRequestLabel "a/b" 1 "bug").1 = .ok ()
      ∧ (cacheTwo.addPullRequestLabel "a/b" 1 "bug").2.addPullRequestLabel "a/b" 1 "bug"
          = (.ok (), (cacheTwo.addPullRequestLabel "a/b" 1 "bug").2)
      ∧ ((mapFind? ((mapFind? (cacheTwo.addPullRequestLabel "a/b" 1 "bug").2.prLabels
            "a/b").getD []) 1).getD []).count "bug" = 1) :=
  ⟨⟨rfl, rfl, rfl, rfl, by decide⟩,
   C7_label_attach_idempotent cacheTwo "a/b" 1 "bug" repoAB [(1, prOne)] prOne labelBug
     rfl rfl rfl rfl (by decide)⟩

/-! ## C8: cascading repository deletion -/

/-- C8: deleting a tracked repository succeeds, removes the repository
record and every pull request, issue and label association of that
repository (no item of that repository is queryable afterwards), leaves
the global label table untouched, and leaves every other key of every
collection unchanged. -/
theorem C8_delete_cascade (c : Cache) (owner name : String) (r₀ : Repository)
    (hrepo : mapFind? c.repositories (owner ++ "/" ++ name) = some r₀) :
    (c.deleteRepository owner name).1 = .ok ()
    ∧ mapFind? (c.deleteRepository owner name).2.repositories (owner ++ "/" ++ name) = none
    ∧ mapFind? (c.deleteRepository owner name).2.pullRequests (owner ++ "/" ++ name) = none
    ∧ mapFind? (c.deleteRepository owner name).2.issues (owner ++ "/" ++ name) = none
    ∧ mapFind? (c.deleteRepository owner name).2.prLabels (owner ++ "/" ++ name) = none
    ∧ mapFind? (c.deleteRepository owner name).2.issueLabels (owner ++ "/" ++ name) = none
    ∧ (∀ num : Int, (c.deleteRepository owner name).2.getPullRequest (owner ++ "/" ++ name) num
        = .error ("repository " ++ (owner ++ "/" ++ name) ++ " not found"))
    ∧ (∀ num : Int, (c.deleteRepository owner name).2.getIssue (owner ++ "/" ++ name) num
        = .error ("repository " ++ (owner ++ "/" ++ name) ++ " not found"))
    ∧ (c.deleteRepository owner name).2.labels = c.labels
    ∧ (∀ k : String, k ≠ owner ++ "/" ++ name →
        mapFind? (c.deleteRepository owner name).2.repositories k = mapFind? c.repositories k
        ∧ mapFind? (c.deleteRepository owner name).2.pullRequests k = mapFind? c.pullRequests k
        ∧ mapFind? (c.deleteRepository owner name).2.issues k = mapFind? c.issues k
        ∧ mapFind? (c.deleteRepository owner name).2.prLabels k = mapFind? c.prLabels k
        ∧ mapFind? (c.deleteRepository owner name).2.issueLabels k
            = mapFind? c.issueLabels k) := by
  have hstep : c.deleteRepository owner name = (.ok (), { c with repositories := mapErase c.repositories (owner ++ "/" ++ name), pullRequests := mapErase c.pullRequests (owner ++ "/" ++ name), issues := mapErase c.issues (owner ++ "/" ++ name), prLabels := mapErase c.prLabels (owner ++ "/" ++ name), issueLabels := mapErase c.issueLabels (owner ++ "/" ++ name) }) := by
    unfold Cache.deleteRepository
    dsimp only
    rw [hrepo]
  rw [hstep]
  refine ⟨rfl, by simp, by simp, by simp, by simp, by simp, ?_, ?_, rfl, ?_⟩
  · intro num
    unfold Cache.getPullRequest
    simp
  · intro num
    unfold Cache.getIssue
    simp
  · intro k hk
    exact ⟨mapFind?_erase_ne _ _ _ hk, mapFind?_erase_ne _ _ _ hk, mapFind?_erase_ne _ _ _ hk,
      mapFind?_erase_ne _ _ _ hk, mapFind?_erase_ne _ _ _ hk⟩

/-- Witness for C8: delete a/b from the two-repository fixture; the
conclusion instance is produced by the theorem. -/
theorem C8_delete_cascade_witness :
    (mapFind? cacheTwo.repositories ("a" ++ "/" ++ "b") = some repoAB)
    ∧ ((cacheTwo.deleteRepository "a" "b").1 = .ok ()
      ∧ mapFind? (cacheTwo.deleteRepository "a" "b").2.repositories ("a" ++ "/" ++ "b") = none
      ∧ mapFind? (cacheTwo.deleteRepository "a" "b").2.pullRequests ("a" ++ "/" ++ "b") = none
      ∧ mapFind? (cacheTwo.deleteRepository "a" "b").2.issues ("a" ++ "/" ++ "b") = none
      ∧ mapFind? (cacheTwo.deleteRepository "a" "b").2.prLabels ("a" ++ "/" ++ "b") = none
      ∧ mapFind? (cacheTwo.deleteRepository "a" "b").2.issueLabels ("a" ++ "/" ++ "b") = none
      ∧ (∀ num : Int, (cacheTwo.deleteRepository "a" "b").2.getPullRequest ("a" ++ "/" ++ "b") num
          = .error ("repository " ++ ("a" ++ "/" ++ "b") ++ " not found"))
      ∧ (∀ num : Int, (cacheTwo.deleteRepository "a" "b").2.getIssue ("a" ++ "/" ++ "b") num
          = .error ("repository " ++ ("a" ++ "/" ++ "b") ++ " not found"))
      ∧ (cacheTwo.deleteRepository "a" "b").2.labels = cacheTwo.labels
      ∧ (∀ k : String, k ≠ "a" ++ "/" ++ "b" →
          mapFind? (cacheTwo.deleteRepository "a" "b").2.repositories k
              = mapFind? cacheTwo.repositories k
          ∧ mapFind? (cacheTwo.deleteRepository "a" "b").2.pullRequests k
              = mapFind? cacheTwo.pullRequests k
          ∧ mapFind? (cacheTwo.deleteRepository "a" "b").2.issues k
              = mapFind? cacheTwo.issues k
          ∧ mapFind? (cacheTwo.deleteRepository "a" "b").2.prLabels k
              = mapFind? cacheTwo.prLabels k
          ∧ mapFind? (cacheTwo.deleteRepository "a" "b").2.issueLabels k
              = mapFind? cacheTwo.issueLabels k)) :=
  ⟨rfl, C8_delete_cascade cacheTwo "a" "b" repoAB rfl⟩

/-! ## C9: repository listing, totality and totals -/

/-- Counterexample to C9: with one tracked repository, page 0 and
perPage 1 drive the Go slice expression repos[-1:0], a slice-bounds
panic (modelled as none), so ListRepositories is not total for every
integer page value as the claim states. -/
theorem C9_counterexample : cacheAB.listRepositories 0 1 = none := rfl

/-- C9 as amended: for every 1-indexed page and nonnegative perPage,
ListRepositories never panics or fails, always returns the total count
of tracked repositories irrespective of pagination, and every page
whose offset is at or past the end yields an empty page. -/
theorem C9_amended (c : Cache) (page perPage : Int)
    (hp : 1 ≤ page) (hpp : 0 ≤ perPage) :
    ∃ repos, c.listRepositories page perPage = some (repos, (c.repositories.length : Int))
      ∧ ((page - 1) * perPage ≥ (c.repositories.length : Int) → repos = []) := by
  unfold Cache.listRepositories
  by_cases h0 : c.repositories.length = 0
  · refine ⟨[], ?_, fun _ => rfl⟩
    simp [h0]
  · rw [if_neg h0]
    by_cases hge : (page - 1) * perPage ≥ (c.repositories.length : Int)
    · rw [if_pos hge]
      exact ⟨[], rfl, fun _ => rfl⟩
    · rw [if_neg hge]
      dsimp only
      have hlt : (page - 1) * perPage < (c.repositories.length : Int) := by omega
      have hstart : 0 ≤ (page - 1) * perPage := mul_nonneg (by omega) hpp
      have hlen : ((c.repositories.map (·.2)).length : Int) = (c.repositories.length : Int) := by
        simp
      by_cases he : (page - 1) * perPage + perPage > (c.repositories.length : Int)
      · rw [if_pos he, goSlice_some _ _ _ hstart (le_of_lt hlt) (by rw [hlen])]
        exact ⟨_, rfl, fun hcon => absurd hcon (by omega)⟩
      · rw [if_neg he, goSlice_some _ _ _ hstart (by omega) (by rw [hlen]; omega)]
        exact ⟨_, rfl, fun hcon => absurd hcon (by omega)⟩

/-- Witness for C9 as amended: page 2, perPage 1 on the one-repository
fixture, an out-of-range page. -/
theorem C9_amended_witness :
    ((1 : Int) ≤ 2 ∧ (0 : Int) ≤ 1)
    ∧ ∃ repos, cacheAB.listRepositories 2 1 = some (repos, (cacheAB.repositories.length : Int))
        ∧ (((2 : Int) - 1) * 1 ≥ (cacheAB.repositories.length : Int) → repos = []) :=
  ⟨⟨by decide, by decide⟩, C9_amended cacheAB 2 1 (by decide) (by decide)⟩

/-! ## Sync-cycle characterizations -/

/-- Characterization of a sync cycle whose pull-request fetch fails for
a tracked repository: the cache is untouched, the trace marks syncing,
then the pull-request error, then the deferred deletion, and the cycle
returns the wrapped error. -/
theorem syncRepository_prFetchError (s : Service) (owner name e : String)
    (issueFetch : Except String (List GhIssue)) (now : Nat) (repo : Repository)
    (hrepo : s.cache.getRepository owner name = .ok repo) :
    Service.syncRepository s owner name (.error e) issueFetch now =
      { state := { cache := s.cache, syncStatus := mapErase (mapInsert (mapInsert s.syncStatus (owner ++ "/" ++ name) "syncing") (owner ++ "/" ++ name) ("error syncing pull requests: " ++ ("failed to list pull requests: " ++ e))) (owner ++ "/" ++ name) }
        trace := [mapInsert s.syncStatus (owner ++ "/" ++ name) "syncing", mapInsert (mapInsert s.syncStatus (owner ++ "/" ++ name) "syncing") (owner ++ "/" ++ name) ("error syncing pull requests: " ++ ("failed to list pull requests: " ++ e)), mapErase (mapInsert (mapInsert s.syncStatus (owner ++ "/" ++ name) "syncing") (owner ++ "/" ++ name) ("error syncing pull requests: " ++ ("failed to list pull requests: " ++ e))) (owner ++ "/" ++ name)]
        result := .error ("failed to sync pull requests: " ++ ("failed to list pull requests: " ++ e)) } := by
  unfold Service.syncRepository
  dsimp only
  rw [hrepo]
  dsimp only
  unfold Service.syncPullRequests
  rw [hrepo]

/-- Every exit path of a sync cycle runs the deferred deletion of the
sync-status entry, so the final status map never binds the full name. -/
theorem syncRepository_final_status_erased (s : Service) (owner name : String)
    (prFetch : Except String (List GhPullRequest))
    (issueFetch : Except String (List GhIssue)) (now : Nat) :
    mapFind? (Service.syncRepository s owner name prFetch issueFetch now).state.syncStatus
      (owner ++ "/" ++ name) = none := by
  unfold Service.syncRepository
  repeat' (first | rw [mapFind?_erase_self] | split | dsimp only)

/-! ## C1: status snapshot double counts errored entries -/

/-- Counterexample to C1: during a sync cycle whose pull-request fetch
fails, the status map observable between the error write and the
deferred deletion (the second trace entry) holds one entry whose status
starts with "error"; the GetStatus counters over that map report it in
the errored count and also in the syncing count (which is the size of
the whole map), so an errored entry is not excluded from the syncing
count as the claim states. -/
theorem C1_counterexample :
    [("a/b", "error syncing pull requests: failed to list pull requests: boom")]
        ∈ (Service.syncRepository svcAB "a" "b" (.error "boom") (.ok []) 5).trace
    ∧ (Service.getStatusCounts 1
        [("a/b", "error syncing pull requests: failed to list pull requests: boom")]).2.2 = 1
    ∧ (Service.getStatusCounts 1
        [("a/b", "error syncing pull requests: failed to list pull requests: boom")]).2.1 = 1 := by
  refine ⟨?_, by decide, by decide⟩
  decide

/-- C1 as amended: the syncing count of GetStatus is the size of the
whole status map and therefore splits as the errored count plus the
count of non-errored entries: an entry whose status is an error string
is counted in the errored count and also in the syncing count. -/
theorem C1_amended (total : Nat) (syncStatus : List (String × String)) :
    (Service.getStatusCounts total syncStatus).2.1
      = (Service.getStatusCounts total syncStatus).2.2
        + (syncStatus.filter (fun p => !(strHasPfx p.2 "error"))).length := by
  unfold Service.getStatusCounts
  dsimp only
  induction syncStatus with
  | nil => rfl
  | cons x xs ih =>
      by_cases h : strHasPfx x.2 "error" = true <;>
        simp [List.filter_cons, h, ih] <;> omega

/-! ## C2: the error status is not retained after a failed cycle -/

/-- Counterexample to C2: a cycle for the tracked repository a/b whose
pull-request fetch fails returns an error, yet the deferred deletion
removes the sync-status entry, so after the cycle the entry does not
hold an error value (it is gone) and a later snapshot reports no
errored repository. -/
theorem C2_counterexample :
    (Service.syncRepository svcAB "a" "b" (.error "boom") (.ok []) 5).result
        = .error "failed to sync pull requests: failed to list pull requests: boom"
    ∧ mapFind? (Service.syncRepository svcAB "a" "b" (.error "boom") (.ok []) 5).state.syncStatus
        "a/b" = none
    ∧ (Service.getStatusCounts 1
        (Service.syncRepository svcAB "a" "b" (.error "boom") (.ok []) 5).state.syncStatus).2.2
        = 0 :=
  ⟨rfl, by decide, by decide⟩

/-- C2 as amended: after any sync cycle, failed or successful, the
deferred cleanup has removed the sync-status entry of the repository;
for a failed pull-request stage the entry holds the error value only
transiently, in the status map between the error write and the deferred
deletion (the second trace entry). -/
theorem C2_amended (s : Service) (owner name : String)
    (prFetch : Except String (List GhPullRequest))
    (issueFetch : Except String (List GhIssue)) (now : Nat) :
    mapFind? (Service.syncRepository s owner name prFetch issueFetch now).state.syncStatus
        (owner ++ "/" ++ name) = none
    ∧ (∀ e repo, s.cache.getRepository owner name = .ok repo → prFetch = .error e →
        ∃ σ ∈ (Service.syncRepository s owner name prFetch issueFetch now).trace,
          mapFind? σ (owner ++ "/" ++ name)
            = some ("error syncing pull requests: " ++ ("failed to list pull requests: " ++ e))) := by
  refine ⟨syncRepository_final_status_erased .., ?_⟩
  intro e repo hrepo hpr
  subst hpr
  rw [syncRepository_prFetchError s owner name e issueFetch now repo hrepo]
  refine ⟨mapInsert (mapInsert s.syncStatus (owner ++ "/" ++ name) "syncing")
      (owner ++ "/" ++ name)
      ("error syncing pull requests: " ++ ("failed to list pull requests: " ++ e)), ?_, ?_⟩
  · simp
  · rw [mapFind?_insert_self]

/-- Witness for C2 as amended: the concrete failing cycle of the
counterexample also instantiates the amended statement. -/
theorem C2_amended_witness :
    (svcAB.cache.getRepository "a" "b" = .ok repoAB)
    ∧ mapFind? (Service.syncRepository svcAB "a" "b" (.error "boom") (.ok []) 5).state.syncStatus
        ("a" ++ "/" ++ "b") = none
    ∧ (∃ σ ∈ (Service.syncRepository svcAB "a" "b" (.error "boom") (.ok []) 5).trace,
        mapFind? σ ("a" ++ "/" ++ "b")
          = some ("error syncing pull requests: " ++ ("failed to list pull requests: " ++ "boom"))) :=
  ⟨rfl, (C2_amended svcAB "a" "b" (.error "boom") (.ok []) 5).1,
    (C2_amended svcAB "a" "b" (.error "boom") (.ok []) 5).2 "boom" repoAB rfl rfl⟩

/-! ## C3: a failed pull-request stage stops the cycle -/

/-- C3: when the pull-request fetch of a cycle for a tracked repository
fails, the cycle stops before the issue stage: the outcome is the same
for every issue fetch result (no issue fetch or upsert happens), the
cache is completely unchanged (so the stored issues and last_synced_at
are unchanged), the status is set to an error value during the cycle,
and the cycle returns the error.  The deferred cleanup then removes the
status entry when the cycle returns. -/
theorem C3_pr_failure_stops_cycle (s : Service) (owner name e : String)
    (issueFetch : Except String (List GhIssue)) (now : Nat) (repo : Repository)
    (hrepo : s.cache.getRepository owner name = .ok repo) :
    (Service.syncRepository s owner name (.error e) issueFetch now).state.cache = s.cache
    ∧ (Service.syncRepository s owner name (.error e) issueFetch now).state.cache.issues
        = s.cache.issues
    ∧ ((Service.syncRepository s owner name (.error e) issueFetch now).state.cache.getRepository
        owner name) = .ok repo
    ∧ (∀ issueFetch', Service.syncRepository s owner name (.error e) issueFetch' now
        = Service.syncRepository s owner name (.error e) issueFetch now)
    ∧ (∃ σ ∈ (Service.syncRepository s owner name (.error e) issueFetch now).trace,
        mapFind? σ (owner ++ "/" ++ name)
          = some ("error syncing pull requests: " ++ ("failed to list pull requests: " ++ e)))
    ∧ (Service.syncRepository s owner name (.error e) issueFetch now).result
        = .error ("failed to sync pull requests: " ++ ("failed to list pull requests: " ++ e)) := by
  have h := syncRepository_prFetchError s owner name e issueFetch now repo hrepo
  refine ⟨by rw [h], by rw [h], by rw [h]; exact hrepo, ?_, ?_, by rw [h]⟩
  · intro issueFetch'
    rw [h, syncRepository_prFetchError s owner name e issueFetch' now repo hrepo]
  · rw [h]
    refine ⟨mapInsert (mapInsert s.syncStatus (owner ++ "/" ++ name) "syncing")
        (owner ++ "/" ++ name)
        ("error syncing pull requests: " ++ ("failed to list pull requests: " ++ e)), ?_, ?_⟩
    · simp
    · rw [mapFind?_insert_self]

/-- Witness for C3: the concrete failing cycle for a/b. -/
theorem C3_pr_failure_stops_cycle_witness :
    (svcAB.cache.getRepository "a" "b" = .ok repoAB)
    ∧ (Service.syncRepository svcAB "a" "b" (.error "boom") (.ok []) 5).state.cache = svcAB.cache
    ∧ (Service.syncRepository svcAB "a" "b" (.error "boom") (.ok []) 5).result
        = .error ("failed to sync pull requests: " ++ ("failed to list pull requests: " ++ "boom")) :=
  ⟨rfl, (C3_pr_failure_stops_cycle svcAB "a" "b" "boom" (.ok []) 5 repoAB rfl).1,
    (C3_pr_failure_stops_cycle svcAB "a" "b" "boom" (.ok []) 5 repoAB rfl).2.2.2.2.2⟩

/-! ## C10: adding an already-tracked repository is a pure read -/

/-- C10: when the full name parses and the repository is already
cached, Service.AddRepository returns the stored record with no error,
leaves the service state unchanged, dispatches no background sync, and
its outcome is the same for every external fetch result and add time
(the fetch is never performed, nothing is written). -/
theorem C10_tracked_add_is_noop (s : Service) (fullName owner name : String) (r : Repository)
    (hsplit : goSplitSlash fullName = [owner, name])
    (hrepo : s.cache.getRepository owner name = .ok r) :
    ∀ (ghFetch : Except String GhRepository) (addTime : Nat),
      Service.addRepository s fullName ghFetch addTime
        = { result := .ok r, state := s, syncDispatched := false } := by
  intro ghFetch addTime
  unfold Service.addRepository
  rw [hsplit]
  dsimp only
  rw [hrepo]

/-- Witness for C10: adding the already-tracked a/b. -/
theorem C10_tracked_add_is_noop_witness :
    (goSplitSlash "a/b" = ["a", "b"] ∧ svcAB.cache.getRepository "a" "b" = .ok repoAB)
    ∧ Service.addRepository svcAB "a/b" (.error "network down") 99
        = { result := .ok repoAB, state := svcAB, syncDispatched := false } :=
  ⟨⟨by decide, rfl⟩,
    C10_tracked_add_is_noop svcAB "a/b" "a" "b" repoAB (by decide) rfl (.error "network down") 99⟩

/-! ## C4: when last_synced_at is written -/

/-- The GitHub record for a/b used by the C4 counterexample. -/
def ghRepoAB : GhRepository :=
  { owner := { login := "a", avatarURL := "", url := "", htmlURL := "" }
    name := "b", fullName := "a/b", description := "", url := "", htmlURL := ""
    isPrivate := false, createdAt := 1, updatedAt := 2 }

/-- Counterexample to C4: the claim says no operation other than the
final step of a fully successful sync cycle sets last_synced_at, and in
particular that the initial AddRepository does not set it.  But
Service.AddRepository stores the new record with LastSyncedAt equal to
the add time (time.Now() at line 105 of service.go): adding a/b to an
empty service at tick 7 stores and returns last_synced_at = 7. -/
theorem C4_counterexample :
    (Service.addRepository { cache := Cache.new, syncStatus := [] } "a/b" (.ok ghRepoAB) 7).result
        = .ok { owner := "a", name := "b", fullName := "a/b", description := "", url := "",
                htmlURL := "", isPrivate := false, lastSyncedAt := 7, createdAt := 1,
                updatedAt := 2 }
    ∧ mapFind? (Service.addRepository { cache := Cache.new, syncStatus := [] } "a/b"
          (.ok ghRepoAB) 7).state.cache.repositories "a/b"
        = some { owner := "a", name := "b", fullName := "a/b", description := "", url := "",
                 htmlURL := "", isPrivate := false, lastSyncedAt := 7, createdAt := 1,
                 updatedAt := 2 } :=
  ⟨rfl, by decide⟩

/-- Characterization of a successful UpdateRepository: the tracked key
is replaced wholesale. -/
theorem updateRepository_found (c : Cache) (repo r₀ : Repository)
    (h : mapFind? c.repositories (repo.owner ++ "/" ++ repo.name) = some r₀) :
    c.updateRepository repo = (.ok (), { c with repositories := mapInsert c.repositories (repo.owner ++ "/" ++ repo.name) repo }) := by
  unfold Cache.updateRepository
  dsimp only
  rw [h]

/-- A successful GetRepository read reflects a binding of the map. -/
theorem getRepository_ok_find (c : Cache) (owner name : String) (repo : Repository)
    (h : c.getRepository owner name = .ok repo) :
    mapFind? c.repositories (owner ++ "/" ++ name) = some repo := by
  revert h
  unfold Cache.getRepository
  dsimp only
  cases hf : mapFind? c.repositories (owner ++ "/" ++ name) with
  | none =>
      intro hcon
      cases hcon
  | some r' =>
      intro hok
      cases hok
      rfl

/-- C4 as amended: last_synced_at is advanced to the completion time as
the final step of a fully successful sync cycle and is unchanged by any
failed cycle; in addition, the initial Service.AddRepository stores the
freshly fetched repository with last_synced_at set to the add time. -/
theorem C4_amended :
    (∀ (s : Service) (owner name : String) (prFetch : Except String (List GhPullRequest))
        (issueFetch : Except String (List GhIssue)) (now : Nat) (repo : Repository),
      s.cache.getRepository owner name = .ok repo →
      repo.owner = owner → repo.name = name →
      ((Service.syncRepository s owner name prFetch issueFetch now).result = .ok () →
        (Service.syncRepository s owner name prFetch issueFetch now).state.cache.getRepository
            owner name = .ok { repo with lastSyncedAt := now })
      ∧ (∀ e, (Service.syncRepository s owner name prFetch issueFetch now).result = .error e →
        (Service.syncRepository s owner name prFetch issueFetch now).state.cache.getRepository
            owner name = .ok repo))
    ∧ (∀ (s : Service) (fullName owner name e₀ : String) (gr : GhRepository) (addTime : Nat),
        goSplitSlash fullName = [owner, name] →
        s.cache.getRepository owner name = .error e₀ →
        mapFind? s.cache.repositories (gr.owner.login ++ "/" ++ gr.name) = none →
        ∃ r, (Service.addRepository s fullName (.ok gr) addTime).result = .ok r
          ∧ r.lastSyncedAt = addTime
          ∧ mapFind? (Service.addRepository s fullName (.ok gr) addTime).state.cache.repositories
              (gr.owner.login ++ "/" ++ gr.name) = some r) := by
  constructor
  · intro s owner name prFetch issueFetch now repo hrepo howner hname
    subst howner
    subst hname
    have hfind := getRepository_ok_find s.cache repo.owner repo.name repo hrepo
    unfold Service.syncRepository
    dsimp only
    rw [hrepo]
    dsimp only
    rcases hPR : Service.syncPullRequests s.cache repo.owner repo.name prFetch with ⟨resPR, c₁⟩
    cases resPR with
    | error e =>
        dsimp only
        constructor
        · intro hok
          cases hok
        · intro e' hE
          have hc₁ : c₁ = s.cache :=
            syncPullRequests_error_cache s.cache repo.owner repo.name prFetch e c₁ hPR
          rw [hc₁]
          exact hrepo
    | ok u =>
        dsimp only
        rcases hIss : Service.syncIssues c₁ repo.owner repo.name issueFetch with ⟨resIss, c₂⟩
        cases resIss with
        | error e =>
            dsimp only
            constructor
            · intro hok
              cases hok
            · intro e' hE
              have hc₂ : c₂ = c₁ :=
                syncIssues_error_cache c₁ repo.owner repo.name issueFetch e c₂ hIss
              have hrep₁ : c₁.repositories = s.cache.repositories := by
                have h2 := syncPullRequests_repositories s.cache repo.owner repo.name prFetch
                rw [hPR] at h2
                exact h2
              have hget₁ : c₁.getRepository repo.owner repo.name
                  = s.cache.getRepository repo.owner repo.name :=
                getRepository_congr repo.owner repo.name hrep₁
              rw [hc₂, hget₁]
              exact hrepo
        | ok v =>
            dsimp only
            have hrep₁ : c₁.repositories = s.cache.repositories := by
              have h2 := syncPullRequests_repositories s.cache repo.owner repo.name prFetch
              rw [hPR] at h2
              exact h2
            have hrep₂ : c₂.repositories = s.cache.repositories := by
              have h2 := syncIssues_repositories c₁ repo.owner repo.name issueFetch
              rw [hIss] at h2
              rw [h2, hrep₁]
            have hfind₂ : mapFind? c₂.repositories (repo.owner ++ "/" ++ repo.name) = some repo := by
              rw [hrep₂]
              exact hfind
            have hupd := updateRepository_found c₂ { repo with lastSyncedAt := now } repo hfind₂
            rw [hupd]
            dsimp only
            constructor
            · intro _
              unfold Cache.getRepository
              dsimp only
              rw [mapFind?_insert_self]
            · intro e' hcon
              cases hcon
  · intro s fullName owner name e₀ gr addTime hsplit hget hnone
    unfold Service.addRepository
    rw [hsplit]
    dsimp only
    rw [hget]
    dsimp only
    unfold Cache.addRepository
    dsimp only
    rw [hnone]
    dsimp only
    refine ⟨_, rfl, rfl, ?_⟩
    repeat' (first | rw [mapFind?_insert_self] | split | dsimp only)

/-- Witness for C4 as amended: a successful cycle for a/b at tick 9
advances last_synced_at, and adding e/f to an empty service at tick 7
stores last_synced_at = 7. -/
theorem C4_amended_witness :
    (svcAB.cache.getRepository "a" "b" = .ok repoAB
      ∧ (Service.syncRepository svcAB "a" "b" (.ok []) (.ok []) 9).result = .ok ()
      ∧ (Service.syncRepository svcAB "a" "b" (.ok []) (.ok []) 9).state.cache.getRepository
          "a" "b" = .ok { repoAB with lastSyncedAt := 9 })
    ∧ (goSplitSlash "a/b" = ["a", "b"]
      ∧ Cache.new.getRepository "a" "b" = .error "repository a/b not found"
      ∧ ∃ r, (Service.addRepository { cache := Cache.new, syncStatus := [] } "a/b"
            (.ok ghRepoAB) 7).result = .ok r
          ∧ r.lastSyncedAt = 7
          ∧ mapFind? (Service.addRepository { cache := Cache.new, syncStatus := [] } "a/b"
              (.ok ghRepoAB) 7).state.cache.repositories
              (ghRepoAB.owner.login ++ "/" ++ ghRepoAB.name) = some r) :=
  ⟨⟨rfl, rfl,
    (C4_amended.1 svcAB "a" "b" (.ok []) (.ok []) 9 repoAB rfl rfl rfl).1 rfl⟩,
   ⟨by decide, rfl,
    C4_amended.2 { cache := Cache.new, syncStatus := [] } "a/b" "a" "b"
      "repository a/b not found" ghRepoAB 7 (by decide) rfl rfl⟩⟩

/-! ## C5: pagination totals of the query engine -/

theorem tdiv_ofNat (a b : Nat) : Int.tdiv (a : Int) (b : Int) = ((a / b : Nat) : Int) := rfl

theorem tdiv_cast_toNat (a : Nat) (b : Int) (hb : 0 ≤ b) :
    Int.tdiv (a : Int) b = ((a / b.toNat : Nat) : Int) := by
  have hcast : b = ((b.toNat : Nat) : Int) := by omega
  conv_lhs => rw [hcast]
  exact tdiv_ofNat a b.toNat

/-- A 1-indexed page lies past the ceiling page count exactly when its
start offset is at or past the end of the collection. -/
theorem pastEnd_le (p pp N : Nat) (hp : 1 ≤ p) (hpp : 1 ≤ pp)
    (h : (N + pp - 1) / pp < p) : N ≤ (p - 1) * pp := by
  obtain ⟨q, rfl⟩ : ∃ q, p = q + 1 := ⟨p - 1, by omega⟩
  rw [Nat.div_lt_iff_lt_mul (by omega)] at h
  have hq : (q + 1) * pp = q * pp + pp := by ring
  rw [hq] at h
  have hq1 : (q + 1 - 1) * pp = q * pp := by simp
  rw [hq1]
  omega

/-- Characterization of the pagination tail for a 1-indexed page and a
positive page size: no panic, the descriptor carries the pre-page total
and the ceiling page count, and a page past the end yields an empty
slice. -/
theorem paginate_ok {α : Type} (page perPage : Int) (sorted : List α)
    (hp : 1 ≤ page) (hpp : 1 ≤ perPage) :
    ∃ items pg, paginate page perPage sorted = some (items, pg)
      ∧ pg.page = page ∧ pg.perPage = perPage
      ∧ pg.total = (sorted.length : Int)
      ∧ pg.totalPages = (((sorted.length + perPage.toNat - 1) / perPage.toNat : Nat) : Int)
      ∧ (page.toNat > (sorted.length + perPage.toNat - 1) / perPage.toNat → items = []) := by
  have hppne : perPage ≠ 0 := by omega
  have hp1 : 1 ≤ page.toNat := by omega
  have hppt : 1 ≤ perPage.toNat := by omega
  have hnum : (sorted.length : Int) + perPage - 1
      = ((sorted.length + perPage.toNat - 1 : Nat) : Int) := by omega
  have htp : Int.tdiv ((sorted.length : Int) + perPage - 1) perPage
      = (((sorted.length + perPage.toNat - 1) / perPage.toNat : Nat) : Int) := by
    rw [hnum]
    exact tdiv_cast_toNat _ _ (by omega)
  have hcast : (((page.toNat - 1) * perPage.toNat : Nat) : Int) = (page - 1) * perPage := by
    rw [Nat.cast_mul, Nat.cast_sub hp1, Nat.cast_one]
    have h1 : ((page.toNat : Nat) : Int) = page := by omega
    have h2 : ((perPage.toNat : Nat) : Int) = perPage := by omega
    rw [h1, h2]
  unfold paginate
  dsimp only
  rw [if_neg hppne]
  by_cases hge : (page - 1) * perPage ≥ (sorted.length : Int)
  · rw [if_pos hge]
    exact ⟨[], _, rfl, rfl, rfl, rfl, htp, fun _ => rfl⟩
  · rw [if_neg hge]
    have hnotpast : ¬ (page.toNat > (sorted.length + perPage.toNat - 1) / perPage.toNat) := by
      intro hpast
      apply hge
      have hle := pastEnd_le page.toNat perPage.toNat sorted.length hp1 hppt hpast
      calc (sorted.length : Int)
          ≤ (((page.toNat - 1) * perPage.toNat : Nat) : Int) := by exact_mod_cast hle
        _ = (page - 1) * perPage := hcast
    have hstart : 0 ≤ (page - 1) * perPage := by
      have := mul_nonneg (a := page - 1) (b := perPage) (by omega) (by omega)
      exact this
    by_cases he : (page - 1) * perPage + perPage > (sorted.length : Int)
    · rw [if_pos he, goSlice_some sorted _ _ hstart (by omega) (by omega)]
      exact ⟨_, _, rfl, rfl, rfl, rfl, htp, fun hpast => absurd hpast hnotpast⟩
    · rw [if_neg he, goSlice_some sorted _ _ hstart (by omega) (by omega)]
      exact ⟨_, _, rfl, rfl, rfl, rfl, htp, fun hpast => absurd hpast hnotpast⟩

/-- C5: for every list query with a 1-indexed page and positive page
size whose repository scope resolves, the call returns without panic or
error, the descriptor total is the size of the post-filter
pre-pagination set and the page count is its ceiling division by the
page size, and every page past that count yields an empty item slice
with the same descriptor; stated for the pull-request and the issue
query. -/
theorem C5_pagination_totals :
    (∀ (c : Cache) (f : PullRequestFilter) (repos : List Repository)
        (allPRs : List PullRequest),
      1 ≤ f.page → 1 ≤ f.perPage →
      resolveScope c f.repo = some (.ok repos) →
      collectPRs c repos = some allPRs →
      ∃ items pg, Service.listAllPullRequests c f = some (.ok (items, pg))
        ∧ pg.total = ((allPRs.filter (prMatches f)).length : Int)
        ∧ pg.totalPages = ((((allPRs.filter (prMatches f)).length + f.perPage.toNat - 1)
            / f.perPage.toNat : Nat) : Int)
        ∧ (f.page.toNat > ((allPRs.filter (prMatches f)).length + f.perPage.toNat - 1)
            / f.perPage.toNat → items = []))
    ∧ (∀ (c : Cache) (f : IssueFilter) (repos : List Repository) (allIssues : List Issue),
      1 ≤ f.page → 1 ≤ f.perPage →
      resolveScope c f.repo = some (.ok repos) →
      collectIssues c repos = some allIssues →
      ∃ items pg, Service.listAllIssues c f = some (.ok (items, pg))
        ∧ pg.total = ((allIssues.filter (issueMatches f)).length : Int)
        ∧ pg.totalPages = ((((allIssues.filter (issueMatches f)).length + f.perPage.toNat - 1)
            / f.perPage.toNat : Nat) : Int)
        ∧ (f.page.toNat > ((allIssues.filter (issueMatches f)).length + f.perPage.toNat - 1)
            / f.perPage.toNat → items = [])) := by
  constructor
  · intro c f repos allPRs hp hpp hres hcol
    unfold Service.listAllPullRequests
    rw [hres]
    dsimp only
    rw [hcol]
    dsimp only
    obtain ⟨items, pg, hpag, hpage, hper, htot, htp, hpast⟩ :=
      paginate_ok f.page f.perPage (sortByLess (prBefore f) (allPRs.filter (prMatches f))) hp hpp
    rw [hpag]
    refine ⟨items, pg, rfl, ?_, ?_, ?_⟩
    · rw [htot, length_sortByLess]
    · rw [htp, length_sortByLess]
    · intro h
      apply hpast
      rw [length_sortByLess]
      exact h
  · intro c f repos allIssues hp hpp hres hcol
    unfold Service.listAllIssues
    rw [hres]
    dsimp only
    rw [hcol]
    dsimp only
    obtain ⟨items, pg, hpag, hpage, hper, htot, htp, hpast⟩ :=
      paginate_ok f.page f.perPage (sortByLess (issueBefore f) (allIssues.filter (issueMatches f)))
        hp hpp
    rw [hpag]
    refine ⟨items, pg, rfl, ?_, ?_, ?_⟩
    · rw [htot, length_sortByLess]
    · rw [htp, length_sortByLess]
    · intro h
      apply hpast
      rw [length_sortByLess]
      exact h

/-- An unscoped, unfiltered pull-request query of page 1, page size 10. -/
def fltrPR : PullRequestFilter :=
  { state := "", author := "", repo := "", label := "", sortBy := "", direction := "",
    since := 0, groupBy := "", page := 1, perPage := 10 }

/-- An unscoped, unfiltered issue query of page 1, page size 10. -/
def fltrIss : IssueFilter :=
  { state := "", author := "", repo := "", label := "", sortBy := "", direction := "",
    since := 0, groupBy := "", page := 1, perPage := 10 }

/-- Witness for C5: the unscoped queries on the two-repository fixture. -/
theorem C5_pagination_totals_witness :
    ((1 : Int) ≤ fltrPR.page ∧ (1 : Int) ≤ fltrPR.perPage
      ∧ resolveScope cacheTwo fltrPR.repo = some (.ok [repoAB, repoCD])
      ∧ collectPRs cacheTwo [repoAB, repoCD] = some [prOne, prTwo]
      ∧ ∃ items pg, Service.listAllPullRequests cacheTwo fltrPR = some (.ok (items, pg))
          ∧ pg.total = ((([prOne, prTwo].filter (prMatches fltrPR)).length : Nat) : Int)
          ∧ pg.totalPages = (((([prOne, prTwo].filter (prMatches fltrPR)).length
              + fltrPR.perPage.toNat - 1) / fltrPR.perPage.toNat : Nat) : Int)
          ∧ (fltrPR.page.toNat > (([prOne, prTwo].filter (prMatches fltrPR)).length
              + fltrPR.perPage.toNat - 1) / fltrPR.perPage.toNat → items = []))
    ∧ ((1 : Int) ≤ fltrIss.page ∧ (1 : Int) ≤ fltrIss.perPage
      ∧ resolveScope cacheTwo fltrIss.repo = some (.ok [repoAB, repoCD])
      ∧ collectIssues cacheTwo [repoAB, repoCD] = some [issueOne]
      ∧ ∃ items pg, Service.listAllIssues cacheTwo fltrIss = some (.ok (items, pg))
          ∧ pg.total = ((([issueOne].filter (issueMatches fltrIss)).length : Nat) : Int)
          ∧ pg.totalPages = (((([issueOne].filter (issueMatches fltrIss)).length
              + fltrIss.perPage.toNat - 1) / fltrIss.perPage.toNat : Nat) : Int)
          ∧ (fltrIss.page.toNat > (([issueOne].filter (issueMatches fltrIss)).length
              + fltrIss.perPage.toNat - 1) / fltrIss.perPage.toNat → items = [])) :=
  ⟨⟨by decide, by decide, rfl, rfl,
    C5_pagination_totals.1 cacheTwo fltrPR [repoAB, repoCD] [prOne, prTwo]
      (by decide) (by decide) rfl rfl⟩,
   ⟨by decide, by decide, rfl, rfl,
    C5_pagination_totals.2 cacheTwo fltrIss [repoAB, repoCD] [issueOne]
      (by decide) (by decide) rfl rfl⟩⟩

end RepoMgmt